import Mathlib

/-!
Verification of the MenuBox AI authentication and session-lifecycle client
(`frontend/src/services/api.js`) against its specification.

The axios response interceptor implements a single-flight refresh
coordinator: a module-level `isRefreshing` flag, a `failedQueue` array of
parked callers, a `processQueue` broadcast, and a retry-at-most-once guard
via the `_retry` flag on request configs.  We embed that coordinator as an
explicit state machine: the synchronous part of each interceptor invocation
is one step, and the settlement of the awaited `axios.post('/api/auth/refresh')`
promise is another step.  Observable effects (queueing, issuing the refresh
call, resolving or rejecting parked callers, retrying requests with an
Authorization header, clearing tokens and navigating to /login, surfacing
errors) are emitted as an action list per step.

Token material is opaque; access/refresh tokens are strings, caller
identities are naturals.  Server-side code (the FastAPI backend) is not in
the repository snapshot; where a claim depends on it, the backend operation
is modelled from the spec and marked as such in its doc comment.
-/

namespace MenuboxAI

/-- The client token store: the `token` and `refreshToken` localStorage
entries read by `getStoredTokens` in api.js.  `none` models an absent key. -/
structure Store where
  access : Option String
  refresh : Option String
deriving Repr, DecidableEq

/-- `setTokens(access, refresh)` from api.js: a truthy argument is stored
under its key, a falsy one removes the key. -/
def setTokens (access refresh : Option String) (_s : Store) : Store :=
  ⟨access, refresh⟩

/-- `clearTokens()` from api.js: removes both localStorage entries. -/
def clearTokens (_s : Store) : Store :=
  ⟨none, none⟩

/-- Coordinator state of the response interceptor in api.js: the module
globals `isRefreshing` and `failedQueue`, the token store, plus bookkeeping
that records the identity of the caller whose invocation issued the
in-flight refresh call and the refresh token it captured, a ghost count of
refresh calls issued and settled, and whether `window.location.href`
was set to `/login`. -/
structure CoordState where
  isRefreshing : Bool
  failedQueue : List Nat
  refresher : Option (Nat × String)
  store : Store
  refreshCalls : Nat
  settled : Nat
  navLogin : Bool
deriving Repr, DecidableEq

/-- Observable effects of one interceptor step. -/
inductive Act where
  /-- the caller's promise was pushed onto `failedQueue` -/
  | queued (cid : Nat)
  /-- the caller issued the single `axios.post('/api/auth/refresh')` call -/
  | refreshIssued (cid : Nat)
  /-- a parked caller was resolved and retries its original request with
      the given Authorization header value -/
  | resolvedWith (cid : Nat) (auth : String)
  /-- a parked caller was rejected with the refresh error -/
  | rejectedWith (cid : Nat)
  /-- the refresher retried its original request with the given
      Authorization header value -/
  | retriedWith (cid : Nat) (auth : String)
  /-- the error was surfaced to the caller via `Promise.reject` -/
  | surfaced (cid : Nat)
  /-- `clearTokens()` ran and `window.location.href` was set to `/login` -/
  | clearedNav
deriving Repr, DecidableEq

/-- Events driving the coordinator: a response error reaching the
interceptor (with its status and the request's `_retry` flag), or the
settlement of the in-flight refresh call. -/
inductive Ev where
  | response (cid : Nat) (status : Nat) (retryFlag : Bool)
  | settleSuccess (tok : String)
  | settleFailure
deriving Repr, DecidableEq

/-- The Authorization header built by the interceptor. -/
def bearer (tok : String) : String :=
  "Bearer " ++ tok

/-- One step of the coordinator, transcribing the error handler of
`api.interceptors.response.use` and the settlement of the awaited refresh
call.  `none` means the event is not enabled (a settlement with no refresh
in flight). -/
def step (s : CoordState) (e : Ev) : Option (CoordState × List Act) :=
  match e with
  | .response cid status retryFlag =>
    if status = 401 ∧ s.store.refresh.isSome = true ∧ retryFlag = false then
      if s.isRefreshing = true then
        some ({ s with failedQueue := s.failedQueue ++ [cid] }, [.queued cid])
      else
        match s.store.refresh with
        | some rtok =>
          some ({ s with isRefreshing := true,
                         refresher := some (cid, rtok),
                         refreshCalls := s.refreshCalls + 1 },
                [.refreshIssued cid])
        | none => none
    else if status = 401 then
      some ({ s with store := clearTokens s.store, navLogin := true },
            [.clearedNav, .surfaced cid])
    else
      some (s, [.surfaced cid])
  | .settleSuccess tok =>
    match s.refresher with
    | some (cid, rtok) =>
      some ({ s with store := setTokens (some tok) (some rtok) s.store,
                     failedQueue := [],
                     refresher := none,
                     isRefreshing := false,
                     settled := s.settled + 1 },
            (s.failedQueue.map (fun c => Act.resolvedWith c (bearer tok)))
              ++ [Act.retriedWith cid (bearer tok)])
    | none => none
  | .settleFailure =>
    match s.refresher with
    | some (cid, _) =>
      some ({ s with store := clearTokens s.store,
                     navLogin := true,
                     failedQueue := [],
                     refresher := none,
                     isRefreshing := false,
                     settled := s.settled + 1 },
            (s.failedQueue.map Act.rejectedWith)
              ++ [Act.clearedNav, Act.surfaced cid])
    | none => none

/-- The coordinator at module load: `isRefreshing = false`,
`failedQueue = []`, no refresh call issued yet. -/
def initState (st : Store) : CoordState :=
  { isRefreshing := false, failedQueue := [], refresher := none,
    store := st, refreshCalls := 0, settled := 0, navLogin := false }

/-- States the coordinator can reach from module load by interceptor
invocations and refresh settlements. -/
inductive Reachable : CoordState → Prop where
  | init (st : Store) : Reachable (initState st)
  | next {s s' : CoordState} {e : Ev} {as : List Act} :
      Reachable s → step s e = some (s', as) → Reachable s'

/-- Coordinator invariant: the in-flight bookkeeping is consistent, and
the number of refresh calls issued exceeds the number settled by exactly
one while refreshing and zero while idle. -/
def coordInv (s : CoordState) : Prop :=
  s.isRefreshing = s.refresher.isSome ∧
  s.refreshCalls = s.settled + (if s.isRefreshing then 1 else 0)

/-- The caller id resumed by an action, when the action is the resumption
of a parked caller (`prom.resolve` / `prom.reject` inside `processQueue`). -/
def resumedCid : Act → Option Nat
  | .resolvedWith c _ => some c
  | .rejectedWith c => some c
  | _ => none

/-- The parked callers resumed by a step, in emission order. -/
def resumedOrder (as : List Act) : List Nat :=
  as.filterMap resumedCid

/-- The resumption actions of a given caller within an action list. -/
def actsFor (c : Nat) (as : List Act) : List Act :=
  as.filter (fun a => resumedCid a == some c)

/-- A concrete coordinator state with a refresh call in flight and two
parked callers, used to instantiate theorems. -/
def wRefreshing : CoordState :=
  { isRefreshing := true, failedQueue := [1, 2], refresher := some (0, "r"),
    store := ⟨none, some "r"⟩, refreshCalls := 1, settled := 0,
    navLogin := false }

/-- A server-side user record (`users` table: id, email, password_hash,
email_verified). The password hash is opaque, modelled as a natural. -/
structure User where
  email : String
  password_hash : Nat
  email_verified : Bool
deriving Repr, DecidableEq

/-- The error taxonomy entries relevant to login (§7 of the spec). -/
inductive AuthError where
  | unauthorized
  | forbiddenUnverified
deriving Repr, DecidableEq

/-- The token pair returned by a successful login response. -/
structure TokenPair where
  access_token : String
  refresh_token : String
deriving Repr, DecidableEq

/-- Modelled from the spec: the backend `issueTokens(user)` (§4.1) is not in
the repository snapshot (only the frontend and the database schema are).
Per the spec it fails `Forbidden(unverified)` when `email_verified == false`
and otherwise returns a freshly minted pair; minting is abstracted by the
`mintA`/`mintR` arguments. -/
def issueTokens (u : User) (mintA mintR : String) : Except AuthError TokenPair :=
  if u.email_verified then Except.ok ⟨mintA, mintR⟩
  else Except.error AuthError.forbiddenUnverified

/-- Modelled from the spec: the backend `login(email, password)` (§4.1) is
not in the repository snapshot. Per the spec it fails `Unauthorized` on
password mismatch and `Forbidden(unverified)` if unverified, before any
token is minted; constant-time password comparison is abstracted to
equality of hashes. -/
def loginServer (u : User) (pwHash : Nat) (mintA mintR : String) :
    Except AuthError TokenPair :=
  if u.password_hash = pwHash then issueTokens u mintA mintR
  else Except.error AuthError.unauthorized

/-- `authAPI.register` from api.js: posts to `/auth/register` and returns
the response without calling `setTokens` (comment in the source: the user
must verify first). Its effect on the client token store. -/
def registerClient (s : Store) : Store := s

/-- `authAPI.login` from api.js: on a fulfilled response stores the access
and refresh tokens from the response body; on a rejected promise the
`setTokens` line never runs. -/
def loginClient (s : Store) (resp : Except AuthError TokenPair) : Store :=
  match resp with
  | .ok tp => setTokens (some tp.access_token) (some tp.refresh_token) s
  | .error _ => s

/-- A row of the `users` table (deployment-guide schema): id,
email_verified, and the nullable `reset_token` column. Token material is
opaque, modelled as naturals. -/
structure UserRow where
  id : Nat
  email_verified : Bool
  reset_token : Option Nat
deriving Repr, DecidableEq

/-- A row of the `refresh_tokens` table (deployment-guide schema): user_id
and the `token` column. -/
structure RefreshRow where
  user_id : Nat
  token : Nat
deriving Repr, DecidableEq

/-- The persisted state relevant to token-at-rest claims. -/
structure DB where
  users : List UserRow
  refresh_tokens : List RefreshRow
deriving Repr, DecidableEq

/-- A token-issuing backend operation, carrying the plaintext `p` it
generates. -/
inductive DbOp where
  | issueRefresh (uid p : Nat)
  | issueReset (uid p : Nat)
deriving Repr, DecidableEq

/-- The plaintext generated by an operation. -/
def DbOp.plain : DbOp → Nat
  | .issueRefresh _ p => p
  | .issueReset _ p => p

/-- Modelled from the spec: the backend token-issuance paths are not in the
repository snapshot. Per the spec (§6 persistence contracts), issuing a
refresh token inserts a `refresh_tokens` row whose `token` column holds
`hash p`, and a forgot-password request sets the user's `reset_token`
column to `hash p`; the plaintext `p` is returned to the caller once. -/
def applyOp (hash : Nat → Nat) (db : DB) : DbOp → DB × Nat
  | .issueRefresh uid p =>
      ({ db with refresh_tokens := db.refresh_tokens ++ [⟨uid, hash p⟩] }, p)
  | .issueReset uid p =>
      ({ db with users := db.users.map fun u =>
            if u.id = uid then { u with reset_token := some (hash p) } else u },
       p)

/-- Run a sequence of issuance operations against the database. -/
def runOps (hash : Nat → Nat) (db : DB) : List DbOp → DB
  | [] => db
  | op :: ops => runOps hash (applyOp hash db op).1 ops

/-- The database right after the schema is created: the given users, no
reset tokens, no refresh tokens. -/
def initDB (uids : List Nat) : DB :=
  ⟨uids.map (fun i => ⟨i, false, none⟩), []⟩

/-- Every stored token value in the `refresh_tokens.token` and
`users.reset_token` columns is the hash of some plaintext. -/
def hashedOnly (hash : Nat → Nat) (db : DB) : Prop :=
  (∀ r ∈ db.refresh_tokens, ∃ a, r.token = hash a) ∧
  (∀ u ∈ db.users, ∀ t, u.reset_token = some t → ∃ a, t = hash a)

/-- Possible fates of the fire-and-forget server logout request. -/
inductive ServerOutcome where
  | success
  | failure
  | noAnswer
deriving Repr, DecidableEq

/-- `authAPI.logout` from api.js: reads the stored refresh token, calls
`clearTokens()`, then — only when a refresh token was present — fires the
server logout request without awaiting it, swallowing any rejection with
`.catch(() => {})`. The server outcome `o` plays no part in the client
state. Returns the resulting store and the refresh token sent with the
request, `none` when no request is fired. -/
def logoutClient (s : Store) (_o : ServerOutcome) : Store × Option String :=
  (clearTokens s, s.refresh)

/-- The local decision taken by `ResetPassword.handleSubmit`: either a
validation error shown without any network call, or the
`authAPI.resetPassword(token, password)` call. -/
inductive ResetAction where
  | localError (msg : String)
  | callReset (token : String) (newPassword : String)
deriving Repr, DecidableEq

/-- `handleSubmit` of the ResetPassword page: rejects locally when the
password does not equal its confirmation, then when it is shorter than 8
characters, and only otherwise calls `authAPI.resetPassword(token,
password)`. -/
def handleSubmit (token password confirmPassword : String) : ResetAction :=
  if password ≠ confirmPassword then
    ResetAction.localError "Passwords do not match"
  else if password.length < 8 then
    ResetAction.localError "Password must be at least 8 characters"
  else
    ResetAction.callReset token password

theorem coordInv_init (st : Store) : coordInv (initState st) := by
  simp [coordInv, initState]

theorem coordInv_step {s s' : CoordState} {e : Ev} {as : List Act}
    (hinv : coordInv s) (h : step s e = some (s', as)) : coordInv s' := by
  obtain ⟨h1, h2⟩ := hinv
  cases e with
  | response cid status retryFlag =>
    simp only [step] at h
    split at h
    · split at h
      · simp only [Option.some.injEq, Prod.mk.injEq] at h
        obtain ⟨hs, -⟩ := h
        subst hs
        exact ⟨h1, h2⟩
      · rename_i hnotr
        cases hrf : s.store.refresh with
        | none => rw [hrf] at h; exact absurd h (by simp)
        | some rtok =>
          rw [hrf] at h
          simp only [Option.some.injEq, Prod.mk.injEq] at h
          obtain ⟨hs, -⟩ := h
          subst hs
          constructor
          · simp
          · have hfalse : s.isRefreshing = false := by
              cases hb : s.isRefreshing with
              | false => rfl
              | true => exact absurd hb hnotr
            rw [hfalse] at h2
            simp at h2
            simp [h2]
    · split at h
      · simp only [Option.some.injEq, Prod.mk.injEq] at h
        obtain ⟨hs, -⟩ := h
        subst hs
        exact ⟨h1, h2⟩
      · simp only [Option.some.injEq, Prod.mk.injEq] at h
        obtain ⟨hs, -⟩ := h
        subst hs
        exact ⟨h1, h2⟩
  | settleSuccess tok =>
    simp only [step] at h
    cases hrf : s.refresher with
    | none => rw [hrf] at h; exact absurd h (by simp)
    | some p =>
      rw [hrf] at h
      obtain ⟨cid, rtok⟩ := p
      simp only [Option.some.injEq, Prod.mk.injEq] at h
      obtain ⟨hs, -⟩ := h
      subst hs
      constructor
      · simp
      · have : s.isRefreshing = true := by rw [h1, hrf]; rfl
        rw [this] at h2
        simp at h2
        simp [h2]
  | settleFailure =>
    simp only [step] at h
    cases hrf : s.refresher with
    | none => rw [hrf] at h; exact absurd h (by simp)
    | some p =>
      rw [hrf] at h
      obtain ⟨cid, rtok⟩ := p
      simp only [Option.some.injEq, Prod.mk.injEq] at h
      obtain ⟨hs, -⟩ := h
      subst hs
      constructor
      · simp
      · have : s.isRefreshing = true := by rw [h1, hrf]; rfl
        rw [this] at h2
        simp at h2
        simp [h2]

theorem coordInv_of_reachable {s : CoordState} (h : Reachable s) : coordInv s := by
  induction h with
  | init st => exact coordInv_init st
  | next _ hstep ih => exact coordInv_step ih hstep

theorem step_settleSuccess_eq (s : CoordState) (cid : Nat) (rtok tok : String)
    (h : s.refresher = some (cid, rtok)) :
    step s (.settleSuccess tok) =
      some ({ s with store := ⟨some tok, some rtok⟩,
                     failedQueue := [],
                     refresher := none,
                     isRefreshing := false,
                     settled := s.settled + 1 },
            (s.failedQueue.map (fun c => Act.resolvedWith c (bearer tok)))
              ++ [Act.retriedWith cid (bearer tok)]) := by
  simp [step, h, setTokens]

theorem step_settleFailure_eq (s : CoordState) (cid : Nat) (rtok : String)
    (h : s.refresher = some (cid, rtok)) :
    step s .settleFailure =
      some ({ s with store := ⟨none, none⟩,
                     navLogin := true,
                     failedQueue := [],
                     refresher := none,
                     isRefreshing := false,
                     settled := s.settled + 1 },
            (s.failedQueue.map Act.rejectedWith)
              ++ [Act.clearedNav, Act.surfaced cid]) := by
  simp [step, h, clearTokens]

theorem step_response_queue (s : CoordState) (cid : Nat)
    (hr : s.isRefreshing = true) (href : s.store.refresh.isSome = true) :
    step s (.response cid 401 false) =
      some ({ s with failedQueue := s.failedQueue ++ [cid] },
            [Act.queued cid]) := by
  simp [step, hr, href]

theorem step_response_idle (s : CoordState) (cid : Nat) (rtok : String)
    (hr : s.isRefreshing = false) (href : s.store.refresh = some rtok) :
    step s (.response cid 401 false) =
      some ({ s with isRefreshing := true,
                     refresher := some (cid, rtok),
                     refreshCalls := s.refreshCalls + 1 },
            [Act.refreshIssued cid]) := by
  simp [step, hr, href]

theorem step_response_retried (s : CoordState) (cid : Nat) :
    step s (.response cid 401 true) =
      some ({ s with store := clearTokens s.store, navLogin := true },
            [Act.clearedNav, Act.surfaced cid]) := by
  simp [step]

/-- C1: single-flight refresh. At every reachable coordinator state, at
most one refresh call is in flight (issued but unsettled).  A 401 with a
stored refresh token and no `_retry` flag arriving while idle issues
exactly one refresh call and sets `isRefreshing`; the same event arriving
while refreshing appends the caller to the wait queue and issues no
refresh call (`refreshCalls` is unchanged in the resulting state). -/
theorem single_flight_refresh (s : CoordState) (cid : Nat)
    (hs : Reachable s) (href : s.store.refresh.isSome = true) :
    s.refreshCalls - s.settled ≤ 1 ∧
    (s.isRefreshing = false →
      ∃ rtok, s.store.refresh = some rtok ∧
        step s (.response cid 401 false) =
          some ({ s with isRefreshing := true,
                         refresher := some (cid, rtok),
                         refreshCalls := s.refreshCalls + 1 },
                [Act.refreshIssued cid])) ∧
    (s.isRefreshing = true →
      step s (.response cid 401 false) =
        some ({ s with failedQueue := s.failedQueue ++ [cid] },
              [Act.queued cid])) := by
  obtain ⟨-, h2⟩ := coordInv_of_reachable hs
  refine ⟨?_, ?_, ?_⟩
  · by_cases hb : s.isRefreshing = true
    · rw [if_pos hb] at h2; omega
    · rw [if_neg hb] at h2; omega
  · intro hr
    rcases hrf : s.store.refresh with _ | rtok
    · rw [hrf] at href; simp at href
    · exact ⟨rtok, rfl, step_response_idle s cid rtok hr hrf⟩
  · intro hr
    exact step_response_queue s cid hr href

theorem single_flight_refresh_witness :
    (initState ⟨some "a", some "r"⟩).refreshCalls
      - (initState ⟨some "a", some "r"⟩).settled ≤ 1 :=
  (single_flight_refresh (initState ⟨some "a", some "r"⟩) 0
    (Reachable.init ⟨some "a", some "r"⟩) rfl).1

/-- C2: retry-at-most-once. A 401 response for a request whose `_retry`
flag is set is never enqueued and never issues a refresh call; the wait
queue and the refresh-call count are unchanged and the error is surfaced
to the caller (after the clear-and-redirect branch runs). -/
theorem retry_at_most_once (s : CoordState) (cid : Nat) :
    step s (.response cid 401 true) =
      some ({ s with store := clearTokens s.store, navLogin := true },
            [Act.clearedNav, Act.surfaced cid]) ∧
    ∀ s2 as, step s (.response cid 401 true) = some (s2, as) →
      Act.queued cid ∉ as ∧
      (∀ c, Act.refreshIssued c ∉ as) ∧
      s2.failedQueue = s.failedQueue ∧
      s2.refreshCalls = s.refreshCalls ∧
      Act.surfaced cid ∈ as := by
  refine ⟨step_response_retried s cid, ?_⟩
  intro s2 as h
  rw [step_response_retried s cid] at h
  simp only [Option.some.injEq, Prod.mk.injEq] at h
  obtain ⟨hs2, has⟩ := h
  subst hs2; subst has
  refine ⟨by simp, by simp, rfl, rfl, by simp⟩

theorem retry_at_most_once_witness :
    step (initState ⟨some "a", some "r"⟩) (.response 0 401 true) =
      some ({ initState ⟨some "a", some "r"⟩ with
                store := clearTokens (initState ⟨some "a", some "r"⟩).store,
                navLogin := true },
            [Act.clearedNav, Act.surfaced 0]) :=
  (retry_at_most_once (initState ⟨some "a", some "r"⟩) 0).1

/-- C3: refresh-success broadcast. When the in-flight refresh call
resolves with a new access token, every parked caller is resolved with
that token and retries its original request exactly once — as many
resumption actions as queue occurrences — carrying an Authorization header
built from the new token; the queue is emptied and the coordinator returns
to idle with the new access token stored. -/
theorem refresh_success_broadcast (s : CoordState) (cid : Nat)
    (rtok tok : String) (h : s.refresher = some (cid, rtok)) :
    step s (.settleSuccess tok) =
      some ({ s with store := ⟨some tok, some rtok⟩,
                     failedQueue := [],
                     refresher := none,
                     isRefreshing := false,
                     settled := s.settled + 1 },
            (s.failedQueue.map (fun c => Act.resolvedWith c (bearer tok)))
              ++ [Act.retriedWith cid (bearer tok)]) ∧
    ∀ s2 as, step s (.settleSuccess tok) = some (s2, as) →
      (∀ c, as.count (Act.resolvedWith c (bearer tok)) = s.failedQueue.count c) ∧
      s2.failedQueue = [] ∧
      s2.isRefreshing = false ∧
      s2.store.access = some tok := by
  refine ⟨step_settleSuccess_eq s cid rtok tok h, ?_⟩
  intro s2 as hstep
  rw [step_settleSuccess_eq s cid rtok tok h] at hstep
  simp only [Option.some.injEq, Prod.mk.injEq] at hstep
  obtain ⟨hs2, has⟩ := hstep
  subst hs2; subst has
  refine ⟨?_, rfl, rfl, rfl⟩
  intro c
  rw [List.count_append]
  have hinj : Function.Injective (fun c => Act.resolvedWith c (bearer tok)) := by
    intro a b hab
    simpa using hab
  rw [List.count_map_of_injective s.failedQueue _ hinj c]
  simp

theorem refresh_success_broadcast_witness :
    step wRefreshing (.settleSuccess "t") =
      some ({ wRefreshing with
                store := ⟨some "t", some "r"⟩,
                failedQueue := [],
                refresher := none,
                isRefreshing := false,
                settled := wRefreshing.settled + 1 },
            (wRefreshing.failedQueue.map
                (fun c => Act.resolvedWith c (bearer "t")))
              ++ [Act.retriedWith 0 (bearer "t")]) :=
  (refresh_success_broadcast wRefreshing 0 "r" "t" rfl).1

/-- C4: refresh-failure path. When the in-flight refresh call rejects,
every parked caller is rejected with the refresh error, no further refresh
call is issued (`refreshCalls` unchanged), both stored tokens are cleared,
the client navigates to `/login`, and the coordinator returns to idle. -/
theorem refresh_failure_path (s : CoordState) (cid : Nat) (rtok : String)
    (h : s.refresher = some (cid, rtok)) :
    step s .settleFailure =
      some ({ s with store := ⟨none, none⟩,
                     navLogin := true,
                     failedQueue := [],
                     refresher := none,
                     isRefreshing := false,
                     settled := s.settled + 1 },
            (s.failedQueue.map Act.rejectedWith)
              ++ [Act.clearedNav, Act.surfaced cid]) ∧
    ∀ s2 as, step s .settleFailure = some (s2, as) →
      (∀ c ∈ s.failedQueue, Act.rejectedWith c ∈ as) ∧
      (∀ c, Act.refreshIssued c ∉ as) ∧
      s2.refreshCalls = s.refreshCalls ∧
      s2.store.access = none ∧
      s2.store.refresh = none ∧
      s2.navLogin = true ∧
      s2.isRefreshing = false := by
  refine ⟨step_settleFailure_eq s cid rtok h, ?_⟩
  intro s2 as hstep
  rw [step_settleFailure_eq s cid rtok h] at hstep
  simp only [Option.some.injEq, Prod.mk.injEq] at hstep
  obtain ⟨hs2, has⟩ := hstep
  subst hs2; subst has
  refine ⟨?_, ?_, rfl, rfl, rfl, rfl, rfl⟩
  · intro c hc
    simp only [List.mem_append, List.mem_map]
    exact Or.inl ⟨c, hc, rfl⟩
  · intro c
    simp

theorem refresh_failure_path_witness :
    step wRefreshing .settleFailure =
      some ({ wRefreshing with
                store := ⟨none, none⟩,
                navLogin := true,
                failedQueue := [],
                refresher := none,
                isRefreshing := false,
                settled := wRefreshing.settled + 1 },
            (wRefreshing.failedQueue.map Act.rejectedWith)
              ++ [Act.clearedNav, Act.surfaced 0]) :=
  (refresh_failure_path wRefreshing 0 "r" rfl).1

/-- C7: FIFO replay order. Whichever way the in-flight refresh settles,
the parked callers are resumed (resolved on success, rejected on failure)
in exactly the order in which they were enqueued on the wait queue. -/
theorem fifo_replay_order (s : CoordState) (cid : Nat) (rtok : String)
    (h : s.refresher = some (cid, rtok)) :
    (∀ tok s2 as, step s (.settleSuccess tok) = some (s2, as) →
        resumedOrder as = s.failedQueue) ∧
    (∀ s2 as, step s .settleFailure = some (s2, as) →
        resumedOrder as = s.failedQueue) := by
  constructor
  · intro tok s2 as hstep
    rw [step_settleSuccess_eq s cid rtok tok h] at hstep
    simp only [Option.some.injEq, Prod.mk.injEq] at hstep
    obtain ⟨-, has⟩ := hstep
    subst has
    simp only [resumedOrder, List.filterMap_append, List.filterMap_map]
    have hcomp : (resumedCid ∘ fun c => Act.resolvedWith c (bearer tok))
        = some := by
      funext c; rfl
    rw [hcomp, List.filterMap_some]
    simp [resumedCid]
  · intro s2 as hstep
    rw [step_settleFailure_eq s cid rtok h] at hstep
    simp only [Option.some.injEq, Prod.mk.injEq] at hstep
    obtain ⟨-, has⟩ := hstep
    subst has
    simp only [resumedOrder, List.filterMap_append, List.filterMap_map]
    have hcomp : (resumedCid ∘ Act.rejectedWith) = some := by
      funext c; rfl
    rw [hcomp, List.filterMap_some]
    simp [resumedCid]

theorem fifo_replay_order_witness :
    resumedOrder ((wRefreshing.failedQueue.map
        (fun c => Act.resolvedWith c (bearer "t")))
      ++ [Act.retriedWith 0 (bearer "t")]) = wRefreshing.failedQueue :=
  (fifo_replay_order wRefreshing 0 "r" rfl).1 "t"
    ({ wRefreshing with
        store := ⟨some "t", some "r"⟩,
        failedQueue := [],
        refresher := none,
        isRefreshing := false,
        settled := wRefreshing.settled + 1 })
    _ (step_settleSuccess_eq wRefreshing 0 "r" "t" rfl)

theorem filter_map_erase_middle (p : Act → Bool) (f : Nat → Act)
    (q1 q2 : List Nat) (c : Nat) (hc : p (f c) = false) :
    ((q1 ++ q2).map f).filter p = ((q1 ++ c :: q2).map f).filter p := by
  simp [List.map_append, List.filter_append, List.filter_cons, hc]

/-- C8: queued-caller cancellation. Removing one parked caller from the
wait queue leaves the in-flight refresh bookkeeping untouched, and after
the refresh settles (either way) the resulting store and coordinator state
are the same and every other parked caller receives exactly the same
resumption actions. -/
theorem queued_caller_cancellation (s : CoordState) (q1 q2 : List Nat)
    (c cid : Nat) (rtok : String)
    (hq : s.failedQueue = q1 ++ c :: q2)
    (h : s.refresher = some (cid, rtok)) :
    ({ s with failedQueue := q1 ++ q2 }.isRefreshing = s.isRefreshing ∧
     { s with failedQueue := q1 ++ q2 }.refreshCalls = s.refreshCalls ∧
     { s with failedQueue := q1 ++ q2 }.refresher = s.refresher) ∧
    (∀ tok sA asA sB asB,
      step s (.settleSuccess tok) = some (sA, asA) →
      step { s with failedQueue := q1 ++ q2 } (.settleSuccess tok)
        = some (sB, asB) →
      sB.store = sA.store ∧ sB.isRefreshing = sA.isRefreshing ∧
      sB.failedQueue = sA.failedQueue ∧
      ∀ c2, c2 ≠ c → actsFor c2 asB = actsFor c2 asA) ∧
    (∀ sA asA sB asB,
      step s .settleFailure = some (sA, asA) →
      step { s with failedQueue := q1 ++ q2 } .settleFailure
        = some (sB, asB) →
      sB.store = sA.store ∧ sB.isRefreshing = sA.isRefreshing ∧
      sB.navLogin = sA.navLogin ∧ sB.failedQueue = sA.failedQueue ∧
      ∀ c2, c2 ≠ c → actsFor c2 asB = actsFor c2 asA) := by
  refine ⟨⟨rfl, rfl, rfl⟩, ?_, ?_⟩
  · intro tok sA asA sB asB hA hB
    rw [step_settleSuccess_eq s cid rtok tok h] at hA
    rw [step_settleSuccess_eq { s with failedQueue := q1 ++ q2 } cid rtok tok h]
      at hB
    simp only [Option.some.injEq, Prod.mk.injEq] at hA hB
    obtain ⟨hsA, hasA⟩ := hA
    obtain ⟨hsB, hasB⟩ := hB
    subst hsA; subst hasA; subst hsB; subst hasB
    refine ⟨rfl, rfl, rfl, ?_⟩
    intro c2 hc2
    rw [hq]
    simp only [actsFor, List.filter_append]
    congr 1
    refine filter_map_erase_middle _ _ q1 q2 c ?_
    simp only [resumedCid, beq_eq_false_iff_ne, ne_eq, Option.some.injEq]
    exact fun hcc => hc2 hcc.symm
  · intro sA asA sB asB hA hB
    rw [step_settleFailure_eq s cid rtok h] at hA
    rw [step_settleFailure_eq { s with failedQueue := q1 ++ q2 } cid rtok h]
      at hB
    simp only [Option.some.injEq, Prod.mk.injEq] at hA hB
    obtain ⟨hsA, hasA⟩ := hA
    obtain ⟨hsB, hasB⟩ := hB
    subst hsA; subst hasA; subst hsB; subst hasB
    refine ⟨rfl, rfl, rfl, rfl, ?_⟩
    intro c2 hc2
    rw [hq]
    simp only [actsFor, List.filter_append]
    congr 1
    refine filter_map_erase_middle _ _ q1 q2 c ?_
    simp only [resumedCid, beq_eq_false_iff_ne, ne_eq, Option.some.injEq]
    exact fun hcc => hc2 hcc.symm

theorem queued_caller_cancellation_witness :
    { wRefreshing with failedQueue := ([] : List Nat) ++ [2] }.isRefreshing
        = wRefreshing.isRefreshing ∧
    { wRefreshing with failedQueue := ([] : List Nat) ++ [2] }.refreshCalls
        = wRefreshing.refreshCalls ∧
    { wRefreshing with failedQueue := ([] : List Nat) ++ [2] }.refresher
        = wRefreshing.refresher :=
  (queued_caller_cancellation wRefreshing [] [2] 1 0 "r" rfl rfl).1

/-- C6: unverified users never obtain a usable session. The client
`register` call leaves the token store untouched; the (spec-modelled)
backend refuses to issue tokens for an unverified user, so the client
`login` flow stores nothing for such a user; and a successful server login
is only possible for a verified user. -/
theorem unverified_no_session (u : User) (hu : u.email_verified = false)
    (s : Store) (pwHash : Nat) (mintA mintR : String) :
    registerClient s = s ∧
    issueTokens u mintA mintR = Except.error AuthError.forbiddenUnverified ∧
    (∀ tp, loginServer u pwHash mintA mintR = Except.ok tp → False) ∧
    loginClient s (loginServer u pwHash mintA mintR) = s ∧
    (∀ u2 pw2 a2 r2 tp, loginServer u2 pw2 a2 r2 = Except.ok tp →
        u2.email_verified = true) := by
  have herr : ∃ e, loginServer u pwHash mintA mintR = Except.error e := by
    simp only [loginServer]
    split
    · exact ⟨AuthError.forbiddenUnverified, by simp [issueTokens, hu]⟩
    · exact ⟨AuthError.unauthorized, rfl⟩
  obtain ⟨e, he⟩ := herr
  refine ⟨rfl, by simp [issueTokens, hu], ?_, ?_, ?_⟩
  · intro tp htp
    rw [he] at htp
    exact absurd htp (by simp)
  · rw [he]; rfl
  · intro u2 pw2 a2 r2 tp htp
    simp only [loginServer] at htp
    split at htp
    · simp only [issueTokens] at htp
      split at htp
      · assumption
      · exact absurd htp (by simp)
    · exact absurd htp (by simp)

theorem unverified_no_session_witness :
    issueTokens ⟨"a@x.com", 0, false⟩ "a" "r"
      = Except.error AuthError.forbiddenUnverified :=
  (unverified_no_session ⟨"a@x.com", 0, false⟩ rfl ⟨none, none⟩ 0 "a" "r").2.1

theorem hashedOnly_applyOp (hash : Nat → Nat) (db : DB) (op : DbOp)
    (h : hashedOnly hash db) : hashedOnly hash (applyOp hash db op).1 := by
  obtain ⟨h1, h2⟩ := h
  cases op with
  | issueRefresh uid p =>
    refine ⟨?_, h2⟩
    intro r hr
    simp only [applyOp, List.mem_append, List.mem_singleton] at hr
    rcases hr with hr | hr
    · exact h1 r hr
    · subst hr; exact ⟨p, rfl⟩
  | issueReset uid p =>
    refine ⟨h1, ?_⟩
    intro u hu t ht
    simp only [applyOp, List.mem_map] at hu
    obtain ⟨u0, hu0, rfl⟩ := hu
    by_cases hid : u0.id = uid
    · rw [if_pos hid] at ht
      simp only [Option.some.injEq] at ht
      exact ⟨p, ht.symm⟩
    · rw [if_neg hid] at ht
      exact h2 u0 hu0 t ht

theorem hashedOnly_runOps (hash : Nat → Nat) (ops : List DbOp) (db : DB)
    (h : hashedOnly hash db) : hashedOnly hash (runOps hash db ops) := by
  induction ops generalizing db with
  | nil => exact h
  | cons op ops ih => exact ih _ (hashedOnly_applyOp hash db op h)

theorem hashedOnly_initDB (hash : Nat → Nat) (uids : List Nat) :
    hashedOnly hash (initDB uids) := by
  constructor
  · intro r hr
    simp [initDB] at hr
  · intro u hu t ht
    simp only [initDB, List.mem_map] at hu
    obtain ⟨i, -, rfl⟩ := hu
    simp at ht

/-- C5: token-at-rest hashing. Along every sequence of (spec-modelled)
token-issuance operations from a fresh database, the `refresh_tokens.token`
and `users.reset_token` columns hold only hash values: every stored value
is the hash of some plaintext and differs from every plaintext issued to a
caller; the plaintext itself is returned exactly at issuance. Generated
plaintexts come from `gen`, whose range the hash function avoids. -/
theorem token_at_rest_hashing (hash gen : Nat → Nat)
    (hdisj : ∀ a n, hash a ≠ gen n)
    (uids : List Nat) (ops : List DbOp)
    (hops : ∀ op ∈ ops, ∃ n, DbOp.plain op = gen n) :
    hashedOnly hash (runOps hash (initDB uids) ops) ∧
    (∀ r ∈ (runOps hash (initDB uids) ops).refresh_tokens,
        ∀ op ∈ ops, r.token ≠ DbOp.plain op) ∧
    (∀ u ∈ (runOps hash (initDB uids) ops).users, ∀ t,
        u.reset_token = some t → ∀ op ∈ ops, t ≠ DbOp.plain op) ∧
    (∀ db uid p, (applyOp hash db (DbOp.issueRefresh uid p)).2 = p ∧
                 (applyOp hash db (DbOp.issueReset uid p)).2 = p) := by
  have hfin := hashedOnly_runOps hash ops (initDB uids)
    (hashedOnly_initDB hash uids)
  refine ⟨hfin, ?_, ?_, ?_⟩
  · intro r hr op hop
    obtain ⟨a, ha⟩ := hfin.1 r hr
    obtain ⟨n, hn⟩ := hops op hop
    rw [ha, hn]
    exact hdisj a n
  · intro u hu t ht op hop
    obtain ⟨a, ha⟩ := hfin.2 u hu t ht
    obtain ⟨n, hn⟩ := hops op hop
    rw [ha, hn]
    exact hdisj a n
  · intro db uid p
    exact ⟨rfl, rfl⟩

theorem token_at_rest_hashing_witness :
    hashedOnly (fun a => 2 * a)
      (runOps (fun a => 2 * a) (initDB [1])
        [DbOp.issueRefresh 1 3, DbOp.issueReset 1 5]) :=
  (token_at_rest_hashing (fun a => 2 * a) (fun n => 2 * n + 1)
    (by intro a n; show 2 * a ≠ 2 * n + 1; omega)
    [1] [DbOp.issueRefresh 1 3, DbOp.issueReset 1 5]
    (by
      intro op hop
      rcases List.mem_cons.mp hop with rfl | hop
      · exact ⟨1, rfl⟩
      · rcases List.mem_cons.mp hop with rfl | hop
        · exact ⟨2, rfl⟩
        · cases hop)).1

/-- C9: logout always clears local credentials. For every initial token
store, `authAPI.logout` leaves both stored tokens removed; the server
logout request carries the previously stored refresh token (none sent when
none was stored) and its outcome has no effect on the resulting store. -/
theorem logout_clears_credentials (s : Store) (o o2 : ServerOutcome) :
    (logoutClient s o).1.access = none ∧
    (logoutClient s o).1.refresh = none ∧
    (logoutClient s o).2 = s.refresh ∧
    logoutClient s o = logoutClient s o2 :=
  ⟨rfl, rfl, rfl, rfl⟩

/-- C10: client-side reset precondition. The reset-password request is
sent iff the entered password equals its confirmation and has length at
least 8, and then carries exactly the page token and the entered password;
any violating input yields a local validation error and no call. -/
theorem reset_precondition (token password confirmPassword : String) :
    ((password = confirmPassword ∧ 8 ≤ password.length) →
        handleSubmit token password confirmPassword
          = ResetAction.callReset token password) ∧
    ((password ≠ confirmPassword ∨ password.length < 8) →
        ∃ msg, handleSubmit token password confirmPassword
          = ResetAction.localError msg) ∧
    (∀ t p, handleSubmit token password confirmPassword
          = ResetAction.callReset t p →
        password = confirmPassword ∧ 8 ≤ password.length ∧
        t = token ∧ p = password) := by
  refine ⟨?_, ?_, ?_⟩
  · rintro ⟨heq, hlen⟩
    subst heq
    simp [handleSubmit, Nat.not_lt.mpr hlen]
  · intro hbad
    by_cases heq : password = confirmPassword
    · subst heq
      rcases hbad with hbad | hbad
      · exact absurd rfl hbad
      · exact ⟨"Password must be at least 8 characters",
          by simp [handleSubmit, hbad]⟩
    · exact ⟨"Passwords do not match", by simp [handleSubmit, heq]⟩
  · intro t p hcall
    by_cases heq : password = confirmPassword
    · subst heq
      by_cases hlen : password.length < 8
      · simp [handleSubmit, hlen] at hcall
      · simp only [handleSubmit] at hcall
        rw [if_neg (by simp), if_neg hlen] at hcall
        injection hcall with h1 h2
        exact ⟨rfl, Nat.not_lt.mp hlen, h1.symm, h2.symm⟩
    · simp [handleSubmit, heq] at hcall

theorem reset_precondition_witness :
    handleSubmit "tk" "password1" "password1"
      = ResetAction.callReset "tk" "password1" :=
  (reset_precondition "tk" "password1" "password1").1 ⟨rfl, by decide⟩

end MenuboxAI
